import Mathlib

/-!
Verification of the LinkedIn job-agent pipeline (`get_jobs.py`, `get_jd.py`,
`resume_job_matcher.py`, `src/app.py`) against its natural-language
specification.  Python dictionaries are embedded as insertion-ordered
association lists over a JSON value type; the external collaborators
(browser session, HTTP fetch, LLM inference) enter as explicit parameters
recording the per-item outcome, exactly at the interface the source code
observes them.
-/

namespace JobAgent

/-- JSON values as produced by `json.loads` in the source (restricted to
integer numbers, the only numeric shape the analysed responses use). -/
inductive Json where
  | null : Json
  | bool : Bool → Json
  | num : Int → Json
  | str : String → Json
  | arr : List Json → Json
  | obj : List (String × Json) → Json
deriving Repr

/-- A Python `dict` with `str` keys: an insertion-ordered association list
with unique keys (uniqueness is maintained by `dictSet`). -/
abbrev Dict := List (String × Json)

/-- Python `d.get(k, default)`: the stored value (even `None`) when the key
is present, otherwise the default. -/
def dictGetD (d : Dict) (k : String) (dflt : Json) : Json :=
  match d with
  | [] => dflt
  | (k₁, v) :: rest => if k₁ = k then v else dictGetD rest k dflt

/-- Python `d.get(k)` / `k in d` probe: the stored value when present. -/
def dictFind (d : Dict) (k : String) : Option Json :=
  match d with
  | [] => none
  | (k₁, v) :: rest => if k₁ = k then some v else dictFind rest k

/-- Python `d[k] = v`: update the value in place when the key exists
(keeping its insertion position), otherwise append the new binding. -/
def dictSet (d : Dict) (k : String) (v : Json) : Dict :=
  match d with
  | [] => [(k, v)]
  | (k₁, v₁) :: rest => if k₁ = k then (k₁, v) :: rest else (k₁, v₁) :: dictSet rest k v

/-- Python `{**a, **b}`: start from `a` and write every binding of `b` over
it in order. -/
def pyMerge (a b : Dict) : Dict :=
  b.foldl (fun acc kv => dictSet acc kv.1 kv.2) a

theorem dictGetD_dictSet_self (d : Dict) (k : String) (v dflt : Json) :
    dictGetD (dictSet d k v) k dflt = v := by
  induction d with
  | nil => simp [dictSet, dictGetD]
  | cons hd tl ih =>
    obtain ⟨k₁, v₁⟩ := hd
    by_cases h : k₁ = k <;> simp [dictSet, dictGetD, h, ih]

theorem dictGetD_dictSet_ne (d : Dict) (k k₂ : String) (v dflt : Json)
    (h : k ≠ k₂) : dictGetD (dictSet d k v) k₂ dflt = dictGetD d k₂ dflt := by
  induction d with
  | nil => simp [dictSet, dictGetD, h]
  | cons hd tl ih =>
    obtain ⟨k₁, v₁⟩ := hd
    by_cases h₁ : k₁ = k
    · subst h₁; simp [dictSet, dictGetD, h]
    · simp [dictSet, dictGetD, h₁, ih]

theorem dictFind_dictSet_ne (d : Dict) (k k₂ : String) (v : Json)
    (h : k ≠ k₂) : dictFind (dictSet d k v) k₂ = dictFind d k₂ := by
  induction d with
  | nil => simp [dictSet, dictFind, h]
  | cons hd tl ih =>
    obtain ⟨k₁, v₁⟩ := hd
    by_cases h₁ : k₁ = k
    · subst h₁; simp [dictSet, dictFind, h]
    · simp [dictSet, dictFind, h₁, ih]

/-! ### `ResumeJobMatcher.clean_text` (resume_job_matcher.py lines 26-38)

`clean_text` collapses whitespace runs to single spaces (`re.sub(r'\s+', ' ')`),
strips the ends, then deletes every lazily-matched case-insensitive
`Show more ... Show less` span (`re.sub` replaces all non-overlapping matches,
scanning left to right, each match ending at the earliest possible
`Show less`). -/

/-- Characters matched by Python's `\s` (ASCII range). -/
def isPyWhitespace (c : Char) : Bool :=
  c = ' ' || c = '\t' || c = '\n' || c = '\r' || c = '\x0b' || c = '\x0c'

/-- Collapse runs of spaces to a single space (the input has already had all
whitespace mapped to a space, so this is `re.sub(r'\s+', ' ')`). -/
def collapseSpaceRuns : List Char → List Char
  | [] => []
  | [c] => [c]
  | c :: c₂ :: cs =>
    if c = ' ' && c₂ = ' ' then collapseSpaceRuns (c₂ :: cs)
    else c :: collapseSpaceRuns (c₂ :: cs)

/-- Python `str.strip()` on a string whose only whitespace is the space
character (ensured by the preceding whitespace collapse). -/
def stripSpaces (cs : List Char) : List Char :=
  ((cs.dropWhile (· = ' ')).reverse.dropWhile (· = ' ')).reverse

/-- Case-insensitive prefix test, as `re.IGNORECASE` applies to the
`Show more` / `Show less` literals. -/
def startsWithCI : List Char → List Char → Bool
  | [], _ => true
  | _ :: _, [] => false
  | p :: ps, c :: cs => p.toLower = c.toLower && startsWithCI ps cs

/-- Index of the first case-insensitive occurrence of `pat`. -/
def findCI (pat : List Char) : List Char → Option Nat
  | [] => if startsWithCI pat [] then some 0 else none
  | c :: cs =>
    if startsWithCI pat (c :: cs) then some 0
    else (findCI pat cs).map (· + 1)

/-- The pattern `Show more.*?Show less` is removed repeatedly: each match
starts at the leftmost `Show more` and the lazy `.*?` ends it at the first
following `Show less`; scanning resumes after the deleted span.  When a
`Show more` has no following `Show less`, no later start position can
complete a match either, so substitution stops. -/
def stripShowMoreLess (fuel : Nat) (cs : List Char) : List Char :=
  match fuel with
  | 0 => cs
  | fuel + 1 =>
    match findCI ("show more".toList) cs with
    | none => cs
    | some i =>
      let rest := cs.drop (i + 9)
      match findCI ("show less".toList) rest with
      | none => cs
      | some j => cs.take i ++ stripShowMoreLess fuel (rest.drop (j + 9))

/-- `ResumeJobMatcher.clean_text` on a string input.  The source first
returns `""` for falsy input (`None` handling lives at the call sites that
pass non-strings, see `jobCleanedDescription`). -/
def cleanText (s : String) : String :=
  if s = "" then ""
  else
    let collapsed := collapseSpaceRuns (s.toList.map fun c => if isPyWhitespace c then ' ' else c)
    let stripped := stripSpaces collapsed
    String.mk (stripShowMoreLess stripped.length stripped)

/-! ### JSON-span extraction (resume_job_matcher.py line 144)

`re.search` over the pattern of an opening brace, a greedy dot-all `.*`, and
a closing brace: the match starts at the leftmost position where the whole
pattern can succeed, and the greedy middle makes it end at the last closing
brace of the text. -/

/-- Greedy completion of the pattern after the opening brace: the prefix of
`cs` up to and including its last closing brace, if any. -/
def greedyCloseBrace : List Char → Option (List Char)
  | [] => none
  | c :: rest =>
    match greedyCloseBrace rest with
    | some inner => some (c :: inner)
    | none => if c = '\x7d' then some [c] else none

/-- Leftmost match of the brace-span pattern: regex engines try each start
position left to right; a position can only start a match at an opening
brace with some closing brace after it. -/
def braceSearch : List Char → Option (List Char)
  | [] => none
  | c :: rest =>
    if c = '\x7b' then
      match greedyCloseBrace rest with
      | some inner => some (c :: inner)
      | none => braceSearch rest
    else braceSearch rest

/-- The matched span of `re.search` with the brace pattern over the whole
response text, as a string. -/
def extractJsonSpan (s : String) : Option String :=
  (braceSearch s.toList).map String.mk

/-! ### A `json.loads` model

Recursive-descent JSON parser over the value grammar the matcher's
responses use: objects, arrays, strings (with the common escapes), integer
numbers, and the three literals.  Python's `json.loads` additionally
accepts floating-point numbers and `\u` escapes, which the analysed
response schema (integer scores, plain-ASCII labels) never produces;
duplicate object keys follow Python semantics (last value wins, first
position kept) via `dictSet`. -/

/-- JSON insignificant whitespace. -/
def isJsonWs (c : Char) : Bool :=
  c = ' ' || c = '\t' || c = '\n' || c = '\r'

/-- Drop insignificant whitespace. -/
def skipWs (cs : List Char) : List Char := cs.dropWhile isJsonWs

/-- Translate a string escape character. -/
def escChar (c : Char) : Option Char :=
  if c = '"' then some '"'
  else if c = '\\' then some '\\'
  else if c = '/' then some '/'
  else if c = 'n' then some '\n'
  else if c = 't' then some '\t'
  else if c = 'r' then some '\r'
  else if c = 'b' then some '\x08'
  else if c = 'f' then some '\x0c'
  else none

/-- Parse a string body after the opening quote, returning the content and
the remainder after the closing quote. -/
def parseStrBody : List Char → Option (List Char × List Char)
  | [] => none
  | c :: rest =>
    if c = '"' then some ([], rest)
    else if c = '\\' then
      match rest with
      | [] => none
      | e :: rest₂ =>
        match escChar e with
        | none => none
        | some ec =>
          match parseStrBody rest₂ with
          | none => none
          | some (s, rem) => some (ec :: s, rem)
    else
      match parseStrBody rest with
      | none => none
      | some (s, rem) => some (c :: s, rem)

/-- Decimal digits to a number. -/
def digitsToNat (ds : List Char) : Nat :=
  ds.foldl (fun a c => a * 10 + (c.toNat - 48)) 0

/-- Parse an integer JSON number (optional minus sign, one or more digits). -/
def parseIntNum (cs : List Char) : Option (Int × List Char) :=
  match cs with
  | '-' :: rest =>
    let p := rest.span Char.isDigit
    if p.1 = [] then none else some (-(digitsToNat p.1 : Int), p.2)
  | _ =>
    let p := cs.span Char.isDigit
    if p.1 = [] then none else some ((digitsToNat p.1 : Int), p.2)

mutual

/-- Parse one JSON value (fuel-indexed to bound the recursion). -/
def parseVal : Nat → List Char → Option (Json × List Char)
  | 0, _ => none
  | fuel + 1, cs =>
    match skipWs cs with
    | 'n' :: 'u' :: 'l' :: 'l' :: rest => some (.null, rest)
    | 't' :: 'r' :: 'u' :: 'e' :: rest => some (.bool true, rest)
    | 'f' :: 'a' :: 'l' :: 's' :: 'e' :: rest => some (.bool false, rest)
    | '"' :: rest => (parseStrBody rest).map fun p => (.str (String.mk p.1), p.2)
    | '[' :: rest => parseArrBody fuel (skipWs rest)
    | '\x7b' :: rest => parseObjBody fuel (skipWs rest)
    | other => (parseIntNum other).map fun p => (.num p.1, p.2)

/-- Parse an array body after the opening bracket (whitespace skipped). -/
def parseArrBody : Nat → List Char → Option (Json × List Char)
  | 0, _ => none
  | fuel + 1, cs =>
    match cs with
    | ']' :: rest => some (.arr [], rest)
    | _ =>
      match parseVal fuel cs with
      | none => none
      | some (v, rem) => parseArrTail fuel [v] rem

/-- Parse the rest of a non-empty array. -/
def parseArrTail : Nat → List Json → List Char → Option (Json × List Char)
  | 0, _, _ => none
  | fuel + 1, acc, cs =>
    match skipWs cs with
    | ',' :: rest =>
      match parseVal fuel rest with
      | none => none
      | some (v, rem) => parseArrTail fuel (acc ++ [v]) rem
    | ']' :: rest => some (.arr acc, rest)
    | _ => none

/-- Parse one `"key": value` member. -/
def parseMember : Nat → List Char → Option ((String × Json) × List Char)
  | 0, _ => none
  | fuel + 1, cs =>
    match skipWs cs with
    | '"' :: rest =>
      match parseStrBody rest with
      | none => none
      | some (k, rem) =>
        match skipWs rem with
        | ':' :: rem₂ =>
          match parseVal fuel rem₂ with
          | none => none
          | some (v, rem₃) => some ((String.mk k, v), rem₃)
        | _ => none
    | _ => none

/-- Parse an object body after the opening brace (whitespace skipped). -/
def parseObjBody : Nat → List Char → Option (Json × List Char)
  | 0, _ => none
  | fuel + 1, cs =>
    match cs with
    | '\x7d' :: rest => some (.obj [], rest)
    | _ =>
      match parseMember fuel cs with
      | none => none
      | some (kv, rem) => parseObjTail fuel (dictSet [] kv.1 kv.2) rem

/-- Parse the rest of a non-empty object. -/
def parseObjTail : Nat → Dict → List Char → Option (Json × List Char)
  | 0, _, _ => none
  | fuel + 1, acc, cs =>
    match skipWs cs with
    | ',' :: rest =>
      match parseMember fuel rest with
      | none => none
      | some (kv, rem) => parseObjTail fuel (dictSet acc kv.1 kv.2) rem
    | '\x7d' :: rest => some (.obj acc, rest)
    | _ => none

end

/-- `json.loads`: parse a complete JSON document (the whole string must be
consumed up to trailing whitespace).  Fuel of twice the length covers the
worst case of one fuel step per half character consumed. -/
def parseJson (s : String) : Option Json :=
  match parseVal (2 * s.length + 8) s.toList with
  | none => none
  | some (v, rem) => if skipWs rem = [] then some v else none

/-! ### Matching Stage (resume_job_matcher.py lines 82-231)

The inference call is external: its outcome per item is an explicit
parameter, `Except.error` for a raised exception and `Except.ok content`
for the returned message text.  `job_title`/`company` are carried as JSON
values because the call sites pass `job.get(...)`, which can be `null`. -/

/-- `ResumeJobMatcher._create_fallback_analysis` (lines 161-178): the
schema-complete placeholder record, bindings in source order. -/
def fallbackAnalysis (jobTitle company : Json) (now : String) : Dict :=
  [("overall_score", .num 0),
   ("technical_skills_score", .num 0),
   ("experience_score", .num 0),
   ("domain_score", .num 0),
   ("responsibilities_score", .num 0),
   ("strengths", .arr [.str "Analysis failed - manual review needed"]),
   ("gaps", .arr [.str "Could not analyze - check API connection"]),
   ("missing_keywords", .arr []),
   ("recommendations", .arr [.str "Retry analysis or review manually"]),
   ("priority", .str "UNKNOWN"),
   ("job_title", jobTitle),
   ("company", company),
   ("analysis_timestamp", .str now),
   ("error", .str "AI analysis failed")]

/-- `ResumeJobMatcher.calculate_match_score` (lines 82-159).  A raised
inference call, a response without a brace span, and a span `json.loads`
rejects all fall to the fallback record (the latter because the
`JSONDecodeError` is caught by the enclosing `except`).  The catch-all
parse case also covers a non-object parse, where the source's subsequent
key assignment would raise a `TypeError` caught by the same `except`. -/
def calculate_match_score (resp : Except String String) (jobTitle company : Json)
    (now : String) : Dict :=
  match resp with
  | .error _ => fallbackAnalysis jobTitle company now
  | .ok content =>
    match extractJsonSpan content with
    | none => fallbackAnalysis jobTitle company now
    | some span =>
      match parseJson span with
      | some (.obj kvs) =>
        dictSet (dictSet (dictSet kvs "job_title" jobTitle) "company" company)
          "analysis_timestamp" (.str now)
      | _ => fallbackAnalysis jobTitle company now

/-- The cleaned description of a job record,
`self.clean_text(job.get('description', ''))` (line 204): `clean_text`
returns the empty string for falsy input, which covers a `null` stored
description; any other non-string value raises in the source and is
excluded by `descriptionWellFormed` in the theorems. -/
def jobCleanedDescription (job : Dict) : String :=
  match dictGetD job "description" (.str "") with
  | .str s => cleanText s
  | _ => ""

/-- The stored description is a string or `null` (or absent), the shapes
the source can process without raising. -/
def descriptionWellFormed (job : Dict) : Bool :=
  match dictGetD job "description" (.str "") with
  | .str _ => true
  | .null => true
  | _ => false

/-- The per-job loop of `analyze_all_jobs` (lines 200-226): a job whose
cleaned description is empty is skipped (`continue`); otherwise one
analysis record is produced and tagged with the job's id and url.
`respond i` is the inference outcome for the job at input position `i`. -/
def analyzeLoop (respond : Nat → Except String String) (now : String) :
    List Dict → Nat → List Dict
  | [], _ => []
  | job :: rest, i =>
    let description := jobCleanedDescription job
    if description = "" then analyzeLoop respond now rest (i + 1)
    else
      let analysis := calculate_match_score (respond i)
        (dictGetD job "title" (.str "No title"))
        (dictGetD job "company" (.str "No company")) now
      let tagged := dictSet (dictSet analysis "job_id" (dictGetD job "job_id" (.str "unknown")))
        "job_url" (dictGetD job "url" (.str ""))
      tagged :: analyzeLoop respond now rest (i + 1)

/-- The sort key `x.get('overall_score', 0)` (line 229).  A non-numeric
stored score would make Python's comparison raise; the numeric reading is
the only one the loop above ever produces on the fallback path, and
genuine records are compared however the response filled them. -/
def scoreKey (d : Dict) : Int :=
  match dictGetD d "overall_score" (.num 0) with
  | .num n => n
  | _ => 0

/-- `ResumeJobMatcher.analyze_all_jobs` (lines 180-231): analyze each job,
then `results.sort(key=..., reverse=True)` — a stable descending sort. -/
def analyze_all_jobs (jobs : List Dict) (respond : Nat → Except String String)
    (now : String) : List Dict :=
  (analyzeLoop respond now jobs 0).insertionSort (fun a b => scoreKey b ≤ scoreKey a)

/-! ### Enrichment Stage (get_jd.py lines 18-151)

The fetched page is external: a `PageFn` maps a CSS selector to the
stripped text of the first matching element, `none` when no element
matches.  `soup.select_one` yields an element object whose truthiness the
source tests, so an element with empty text is `some ""`, distinct from a
selector miss. -/

/-- A parsed page presented at the selector interface the source queries. -/
abbrev PageFn := String → Option String

/-- Description selectors (get_jd.py lines 39-46). -/
def descriptionSelectors : List String :=
  [".description__text",
   ".show-more-less-html__markup",
   ".jobs-description-content__text",
   ".jobs-box__html-content",
   "[data-testid=\"job-details\"]",
   ".jobs-description__container"]

/-- Title selectors (lines 65-69). -/
def titleSelectors : List String :=
  [".top-card-layout__title",
   ".jobs-unified-top-card__job-title",
   "h1.t-24"]

/-- Company selectors (lines 78-82). -/
def companySelectors : List String :=
  [".top-card-layout__card .top-card-layout__second-subline a",
   ".jobs-unified-top-card__company-name",
   ".top-card-layout__card .top-card-layout__second-subline"]

/-- Location selectors (lines 91-94). -/
def locationSelectors : List String :=
  [".top-card-layout__card .top-card-layout__third-subline",
   ".jobs-unified-top-card__bullet"]

/-- Try the selectors in priority order; the first that finds an element
wins (`break` in the source loops). -/
def selectFirst (page : PageFn) : List String → Option String
  | [] => none
  | s :: rest =>
    match page s with
    | some t => some t
    | none => selectFirst page rest

/-- A Python optional string as a stored JSON value. -/
def optJson : Option String → Json
  | none => .null
  | some s => .str s

/-- The `job_details` dict built by `fetch_job_description` on a fetched
and parsed page (lines 55-100): the literal constructs the six keys in
this order, and the selector loops then update `title`/`company`/
`location` in place, leaving them `null` on a miss.  `employment_type`
and `seniority_level` are never assigned.  The description falls back to
the initial `""` when no selector finds an element. -/
def jobDetailsFromPage (page : PageFn) : Dict :=
  [("title", optJson (selectFirst page titleSelectors)),
   ("company", optJson (selectFirst page companySelectors)),
   ("location", optJson (selectFirst page locationSelectors)),
   ("employment_type", .null),
   ("seniority_level", .null),
   ("description", .str ((selectFirst page descriptionSelectors).getD ""))]

/-- `fetch_job_description` (lines 18-109): `none` models the
`requests.RequestException` / parse-exception paths that return `None`. -/
def fetch_job_description (outcome : Option PageFn) : Option Dict :=
  outcome.map jobDetailsFromPage

/-- The per-item loop of `fetch_all_job_descriptions` (lines 119-144):
success merges the fetched details over the original record
(`{**job, **job_details}`); failure appends the original record
unchanged.  The rate-limit sleep and five-item checkpoint writes do not
affect the returned collection. -/
def fetchLoop (outcome : Nat → Option PageFn) : List Dict → Nat → List Dict
  | [], _ => []
  | job :: rest, i =>
    (match fetch_job_description (outcome i) with
     | some details => pyMerge job details
     | none => job) :: fetchLoop outcome rest (i + 1)

/-- `fetch_all_job_descriptions` (lines 111-151), `outcome i` being the
fetch result of the job at input position `i`. -/
def fetch_all_job_descriptions (jobs : List Dict) (outcome : Nat → Option PageFn) :
    List Dict :=
  fetchLoop outcome jobs 0

/-! ### Discovery Stage (get_jobs.py lines 48-445)

The browser session is external.  One `while` iteration of
`collect_job_ids_from_search` observes the identifiers currently visible
(`get_job_ids_from_page`); the iterations' observations form the `pages`
list, exhausted when both `scroll_to_load_more_jobs` and `click_next_job`
fail and the loop breaks. -/

/-- The outcome of `get_job_info` for one identifier: whether navigation
to the job card succeeded, and what the three info selectors found. -/
structure JobMeta where
  navOk : Bool
  title : Option String
  company : Option String
  location : Option String

/-- `LinkedInJobCollector.get_job_info` (lines 391-444).  On navigation
success the dict literal holds `job_id`, `url`, `timestamp` and the three
info fields are appended (each `null` when its selector raises); the
`except` branch returns the fixed all-`null` dict.  Both branches yield a
non-empty dict, so the caller's `if job_info:` test always passes. -/
def get_job_info (meta : JobMeta) (now : Int) (jobId : String) : Dict :=
  if meta.navOk then
    [("job_id", .str jobId),
     ("url", .str ("https://www.linkedin.com/jobs/view/" ++ jobId)),
     ("timestamp", .num now),
     ("title", optJson meta.title),
     ("company", optJson meta.company),
     ("location", optJson meta.location)]
  else
    [("job_id", .str jobId),
     ("url", .str ("https://www.linkedin.com/jobs/view/" ++ jobId)),
     ("title", .null),
     ("company", .null),
     ("location", .null),
     ("timestamp", .num now)]

/-- The inner `for job_id in current_job_ids` loop (lines 370-376): an
identifier is collected only when unseen and the quota has room; `seen`
is the source's `seen_job_ids` set, kept here as a list. -/
def processIds (metaOf : String → JobMeta) (now : Int) (maxJobs : Nat) :
    List String → List String → List Dict → List String × List Dict
  | [], seen, acc => (seen, acc)
  | jid :: rest, seen, acc =>
    if !(seen.contains jid) && acc.length < maxJobs then
      processIds metaOf now maxJobs rest (seen ++ [jid])
        (acc ++ [get_job_info (metaOf jid) now jid])
    else
      processIds metaOf now maxJobs rest seen acc

/-- The outer `while len(collected_jobs) < max_jobs` loop (lines 365-386):
each iteration processes the currently visible identifiers; the loop ends
when the quota is reached or no further results can be revealed. -/
def collectLoop (metaOf : String → JobMeta) (now : Int) (maxJobs : Nat) :
    List (List String) → List String → List Dict → List Dict
  | [], _, acc => acc
  | page :: rest, seen, acc =>
    if acc.length < maxJobs then
      let p := processIds metaOf now maxJobs page seen acc
      collectLoop metaOf now maxJobs rest p.1 p.2
    else acc

/-- The authentication context of `ensure_logged_in` (lines 192-227):
the stored flag, whether a cookies file / credentials were supplied, and
each strategy's outcome. -/
structure AuthAttempts where
  isLoggedIn : Bool
  cookiesGiven : Bool
  cookieOk : Bool
  credsGiven : Bool
  autoOk : Bool
  manualOk : Bool

/-- `LinkedInJobCollector.ensure_logged_in`: cookie login, then credential
login, then manual login, first success short-circuiting. -/
def ensure_logged_in (a : AuthAttempts) : Bool :=
  if a.isLoggedIn then true
  else if a.cookiesGiven && a.cookieOk then true
  else if a.credsGiven && a.autoOk then true
  else a.manualOk

/-- `LinkedInJobCollector.collect_job_ids_from_search` (lines 337-389):
on authentication failure the method returns `[]` before any navigation
or extraction; otherwise it runs the collection loop with empty `seen`
and `collected` state. -/
def collect_job_ids_from_search (a : AuthAttempts) (metaOf : String → JobMeta)
    (now : Int) (pages : List (List String)) (maxJobs : Nat) : List Dict :=
  if ensure_logged_in a then collectLoop metaOf now maxJobs pages [] []
  else []

/-! ### Reporting Stage (resume_job_matcher.py lines 239-299)

`create_summary_report` interpolates `datetime.now()` into the header, so
the clock reading is an explicit `now` parameter here.  The literal text,
including the source file's mangled emoji characters, is transcribed
byte-for-byte via unicode escapes. -/

/-- Python `str()` of a stored JSON value reaching an f-string.  Scalars
follow Python exactly; containers print via `repr`, whose nested quoting
the claims never exercise and which is abbreviated for nested containers. -/
def pyReprAtom : Json → String
  | .null => "None"
  | .bool true => "True"
  | .bool false => "False"
  | .num n => toString n
  | .str s => "\x27" ++ s ++ "\x27"
  | .arr _ => "[...]"
  | .obj _ => "\x7b...\x7d"

/-- Python `str()` at the top level of an interpolation. -/
def pyStr : Json → String
  | .null => "None"
  | .bool true => "True"
  | .bool false => "False"
  | .num n => toString n
  | .str s => s
  | .arr l => "[" ++ ", ".intercalate (l.map pyReprAtom) ++ "]"
  | .obj kvs =>
    "\x7b" ++ ", ".intercalate (kvs.map fun kv => "\x27" ++ kv.1 ++ "\x27: " ++ pyReprAtom kv.2) ++ "\x7d"

/-- `f"{num/den:.1f}"` for an integer sum over a positive count: one
decimal place with round-half-to-even, computed on the exact rational.
Python formats the IEEE double of the quotient, which agrees on the small
integer averages the report computes. -/
def fmtFixed1 (num : Int) (den : Nat) : String :=
  if den = 0 then "nan"
  else
    let sgn := if num < 0 then "-" else ""
    let t := 10 * num.natAbs
    let q := t / den
    let r := t % den
    let rounded :=
      if den < 2 * r then q + 1
      else if 2 * r < den then q
      else if q % 2 = 0 then q else q + 1
    sgn ++ toString (rounded / 10) ++ "." ++ toString (rounded % 10)

/-- `r.get('overall_score', 0)` as the statistics value (lines 246-249);
a non-numeric stored score would make the source's `sum`/comparisons
raise. -/
def scoreVal (r : Dict) : Int :=
  match dictGetD r "overall_score" (.num 0) with
  | .num n => n
  | _ => 0

/-- One string element of `', '.join(strengths)`; a non-string element
raises a `TypeError` in the source. -/
def joinElem : Json → String
  | .str s => s
  | j => pyStr j

/-- The optional strengths line of a top-5 entry (lines 276-278): the
first two strengths, only when that slice is non-empty.  A non-list
stored value is sliced or raises in the source; the claims only exercise
lists, to which this model restricts the field. -/
def strengthsLine (r : Dict) : String :=
  match dictGetD r "strengths" (.arr []) with
  | .arr l =>
    if (l.take 2).isEmpty then ""
    else "\n   Strengths: " ++ ", ".intercalate ((l.take 2).map joinElem)
  | _ => ""

/-- One entry of the top-5 listing (lines 265-280). -/
def top5Line (idx : Nat) (r : Dict) : String :=
  "\n" ++ toString idx ++ ". " ++ pyStr (dictGetD r "job_title" (.str "No title"))
    ++ " at " ++ pyStr (dictGetD r "company" (.str "No company"))
    ++ "\n   Score: " ++ pyStr (dictGetD r "overall_score" (.num 0))
    ++ "/100 | Priority: " ++ pyStr (dictGetD r "priority" (.str "UNKNOWN"))
    ++ "\n   Job ID: " ++ pyStr (dictGetD r "job_id" (.str "unknown"))
    ++ strengthsLine r
    ++ "\n"

/-- The `for i, job in enumerate(results[:5], 1)` loop. -/
def top5Lines (idx : Nat) : List Dict → String
  | [] => ""
  | r :: rest => top5Line idx r ++ top5Lines (idx + 1) rest

/-- `j.get('priority') == p` (lines 283-284): the comparison is `False`
when the key is absent (default `None`) or holds a non-string. -/
def priorityIs (p : String) (r : Dict) : Bool :=
  match dictFind r "priority" with
  | some (.str s) => s = p
  | _ => false

/-- `ResumeJobMatcher.create_summary_report` (lines 239-299). -/
def create_summary_report (now : String) (results : List Dict) : String :=
  if results.isEmpty then "No jobs analyzed."
  else
    let scores := results.map scoreVal
    let total := results.length
    let highMatches := (scores.filter (fun s => 80 ≤ s)).length
    let mediumMatches := (scores.filter (fun s => 60 ≤ s && s < 80)).length
    let highPriority := (results.filter (priorityIs "HIGH")).length
    let mediumPriority := (results.filter (priorityIs "MEDIUM")).length
    "\nüéØ RESUME-JOB MATCH ANALYSIS REPORT\nGenerated: " ++ now
      ++ "\n\nüìà SUMMARY STATISTICS\n‚Ä¢ Total Jobs Analyzed: "
      ++ toString total
      ++ "\n‚Ä¢ Average Match Score: " ++ fmtFixed1 scores.sum total
      ++ "/100\n‚Ä¢ High Matches (80+): " ++ toString highMatches
      ++ " jobs\n‚Ä¢ Medium Matches (60-79): " ++ toString mediumMatches
      ++ " jobs\n\nüîù TOP 5 MATCHES\n"
      ++ top5Lines 1 (results.take 5)
      ++ "\nüéØ APPLICATION STRATEGY\n‚Ä¢ HIGH Priority: "
      ++ toString highPriority
      ++ " jobs - Apply immediately\n‚Ä¢ MEDIUM Priority: "
      ++ toString mediumPriority
      ++ " jobs - Apply with tailored resume\n‚Ä¢ Review top gaps and missing keywords to improve future matches\n\nüìù NEXT STEPS\n1. Apply to HIGH priority jobs first\n2. Tailor resume for top medium matches\n3. Review missing keywords to update resume\n4. Focus on addressing top skill gaps\n"

/-! ### Helper lemmas -/

/-- The id tag of a record, `r.get('job_id', 'unknown')`. -/
def jobIdOf (r : Dict) : Json := dictGetD r "job_id" (.str "unknown")

/-- Whether a job survives the Matching Stage's skip test. -/
def hasCleanDescription (job : Dict) : Bool := !(jobCleanedDescription job == "")

theorem jobIdOf_tagged (analysis : Dict) (idv urlv : Json) :
    jobIdOf (dictSet (dictSet analysis "job_id" idv) "job_url" urlv) = idv := by
  unfold jobIdOf
  rw [dictGetD_dictSet_ne _ _ _ _ _ (by decide), dictGetD_dictSet_self]

theorem analyzeLoop_length (respond : Nat → Except String String) (now : String) :
    ∀ (jobs : List Dict) (i : Nat),
      (analyzeLoop respond now jobs i).length = jobs.countP hasCleanDescription := by
  intro jobs
  induction jobs with
  | nil => intro i; simp [analyzeLoop]
  | cons job rest ih =>
    intro i
    by_cases h : jobCleanedDescription job = "" <;>
      simp [analyzeLoop, h, List.countP_cons, hasCleanDescription, ih (i + 1)]

theorem analyzeLoop_jobIds (respond : Nat → Except String String) (now : String) :
    ∀ (jobs : List Dict) (i : Nat),
      (analyzeLoop respond now jobs i).map jobIdOf
        = (jobs.filter hasCleanDescription).map jobIdOf := by
  intro jobs
  induction jobs with
  | nil => intro i; simp [analyzeLoop]
  | cons job rest ih =>
    intro i
    by_cases h : jobCleanedDescription job = ""
    · simp [analyzeLoop, h, List.filter_cons, hasCleanDescription, ih (i + 1)]
    · simp [analyzeLoop, h, List.filter_cons, hasCleanDescription, ih (i + 1), jobIdOf_tagged]
      rfl

/-- C1: for every jobs collection given to `analyze_all_jobs`, one analysis
record is produced per job with a non-empty cleaned description and none
for the others: the output length equals the count of qualifying jobs, and
before the final sort the records' id tags are exactly the qualifying
jobs' ids in input order.  The well-formedness hypothesis restricts to
descriptions the source can process without raising. -/
theorem analyze_all_jobs_totality (jobs : List Dict)
    (respond : Nat → Except String String) (now : String)
    (hwf : ∀ job ∈ jobs, descriptionWellFormed job = true) :
    (analyze_all_jobs jobs respond now).length = jobs.countP hasCleanDescription
    ∧ (analyzeLoop respond now jobs 0).map jobIdOf
        = (jobs.filter hasCleanDescription).map jobIdOf := by
  constructor
  · unfold analyze_all_jobs
    rw [List.length_insertionSort, analyzeLoop_length]
  · exact analyzeLoop_jobIds respond now jobs 0

/-- Witness for C1 at a three-job collection: one job with a real
description, one whose description cleans to empty, one with no
description field. -/
theorem analyze_all_jobs_totality_witness :
    (∀ job ∈ [[("job_id", Json.str "1"), ("description", Json.str "We need a data engineer")],
              [("job_id", Json.str "2"), ("description", Json.str "  Show more x Show less  ")],
              [("job_id", Json.str "3"), ("url", Json.str "u")]], descriptionWellFormed job = true)
    ∧ (analyze_all_jobs
        [[("job_id", Json.str "1"), ("description", Json.str "We need a data engineer")],
         [("job_id", Json.str "2"), ("description", Json.str "  Show more x Show less  ")],
         [("job_id", Json.str "3"), ("url", Json.str "u")]]
        (fun _ => .error "api down") "ts").length
      = [[("job_id", Json.str "1"), ("description", Json.str "We need a data engineer")],
         [("job_id", Json.str "2"), ("description", Json.str "  Show more x Show less  ")],
         [("job_id", Json.str "3"), ("url", Json.str "u")]].countP hasCleanDescription :=
  ⟨by decide,
   (analyze_all_jobs_totality _ (fun _ => .error "api down") "ts" (by decide)).1⟩

theorem jobIdOf_pyMerge_details (job : Dict) (page : PageFn) :
    jobIdOf (pyMerge job (jobDetailsFromPage page)) = jobIdOf job := by
  unfold jobIdOf pyMerge jobDetailsFromPage
  simp only [List.foldl]
  rw [dictGetD_dictSet_ne _ _ _ _ _ (by decide), dictGetD_dictSet_ne _ _ _ _ _ (by decide),
    dictGetD_dictSet_ne _ _ _ _ _ (by decide), dictGetD_dictSet_ne _ _ _ _ _ (by decide),
    dictGetD_dictSet_ne _ _ _ _ _ (by decide), dictGetD_dictSet_ne _ _ _ _ _ (by decide)]

theorem fetchLoop_length_and_ids (outcome : Nat → Option PageFn) :
    ∀ (jobs : List Dict) (i : Nat),
      (fetchLoop outcome jobs i).length = jobs.length
      ∧ (fetchLoop outcome jobs i).map jobIdOf = jobs.map jobIdOf := by
  intro jobs
  induction jobs with
  | nil => intro i; simp [fetchLoop]
  | cons job rest ih =>
    intro i
    refine ⟨by simp [fetchLoop, (ih (i + 1)).1], ?_⟩
    simp only [fetchLoop, List.map_cons, (ih (i + 1)).2, List.cons.injEq, and_true]
    cases houtcome : outcome i with
    | none => simp [fetch_job_description, houtcome]
    | some page => simp [fetch_job_description, houtcome, jobIdOf_pyMerge_details]

/-- C4: the Enrichment Stage output has exactly one record per input
record, with the input's `job_id` values in input order, for every pattern
of per-item fetch outcomes — a failed fetch keeps the original record. -/
theorem fetch_all_job_descriptions_totality (jobs : List Dict)
    (outcome : Nat → Option PageFn) :
    (fetch_all_job_descriptions jobs outcome).length = jobs.length
    ∧ (fetch_all_job_descriptions jobs outcome).map jobIdOf = jobs.map jobIdOf :=
  fetchLoop_length_and_ids outcome jobs 0

/-- A Discovery record that already carries a known title, and a fetched
page on which every selector misses. -/
def cexDiscoveryJob : Dict :=
  [("job_id", Json.str "4266063414"),
   ("url", Json.str "https://www.linkedin.com/jobs/view/4266063414"),
   ("title", Json.str "Data Engineer")]

/-- C5 counterexample: a successful fetch whose title selectors all miss
produces `title = null` in the enriched record, overwriting the known
Discovery value instead of retaining it. -/
theorem selector_miss_overwrites_title_counterexample :
    (fetch_all_job_descriptions [cexDiscoveryJob] (fun _ => some (fun _ => none))).map
        (fun r => dictGetD r "title" (.str "absent")) = [Json.null]
    ∧ Json.null ≠ Json.str "Data Engineer" :=
  ⟨rfl, fun h => Json.noConfusion h⟩

theorem selectFirst_none (page : PageFn) :
    ∀ selectors : List String, (∀ s ∈ selectors, page s = none) →
      selectFirst page selectors = none := by
  intro selectors
  induction selectors with
  | nil => intro _; rfl
  | cons s rest ih =>
    intro h
    simp only [selectFirst, h s (by simp)]
    exact ih fun s₂ hs₂ => h s₂ (by simp [hs₂])

/-- C5 amended: on a successful fetch, the fetched fields replace the
Discovery values in the merged record; in particular when every
title / company / location selector misses, the enriched record stores
`null` in that field whatever the original record carried.  The original
fields survive only when the fetch fails as a whole. -/
theorem selector_miss_stores_null (job : Dict) (page : PageFn)
    (ht : ∀ s ∈ titleSelectors, page s = none)
    (hc : ∀ s ∈ companySelectors, page s = none)
    (hl : ∀ s ∈ locationSelectors, page s = none) :
    dictGetD (pyMerge job (jobDetailsFromPage page)) "title" (.str "absent") = Json.null
    ∧ dictGetD (pyMerge job (jobDetailsFromPage page)) "company" (.str "absent") = Json.null
    ∧ dictGetD (pyMerge job (jobDetailsFromPage page)) "location" (.str "absent") = Json.null := by
  unfold pyMerge jobDetailsFromPage
  rw [selectFirst_none page titleSelectors ht, selectFirst_none page companySelectors hc,
    selectFirst_none page locationSelectors hl]
  simp only [List.foldl, optJson]
  refine ⟨?_, ?_, ?_⟩
  · rw [dictGetD_dictSet_ne _ _ _ _ _ (by decide), dictGetD_dictSet_ne _ _ _ _ _ (by decide),
      dictGetD_dictSet_ne _ _ _ _ _ (by decide), dictGetD_dictSet_ne _ _ _ _ _ (by decide),
      dictGetD_dictSet_ne _ _ _ _ _ (by decide), dictGetD_dictSet_self]
  · rw [dictGetD_dictSet_ne _ _ _ _ _ (by decide), dictGetD_dictSet_ne _ _ _ _ _ (by decide),
      dictGetD_dictSet_ne _ _ _ _ _ (by decide), dictGetD_dictSet_ne _ _ _ _ _ (by decide),
      dictGetD_dictSet_self]
  · rw [dictGetD_dictSet_ne _ _ _ _ _ (by decide), dictGetD_dictSet_ne _ _ _ _ _ (by decide),
      dictGetD_dictSet_ne _ _ _ _ _ (by decide), dictGetD_dictSet_self]

/-- Witness for the amended C5 at the counterexample record and an
all-missing page. -/
theorem selector_miss_stores_null_witness :
    (∀ s ∈ titleSelectors, (fun (_ : String) => (none : Option String)) s = none)
    ∧ dictGetD (pyMerge cexDiscoveryJob (jobDetailsFromPage fun _ => none))
        "title" (.str "absent") = Json.null :=
  ⟨fun _ _ => rfl,
   (selector_miss_stores_null cexDiscoveryJob (fun _ => none)
      (fun _ _ => rfl) (fun _ _ => rfl) (fun _ _ => rfl)).1⟩

/-- The Matching Stage failure paths for one item: the inference call
raised, or no brace span exists in the response, or the span does not
parse as JSON. -/
def matchFailureB (resp : Except String String) : Bool :=
  match resp with
  | .error _ => true
  | .ok content =>
    match extractJsonSpan content with
    | none => true
    | some span => (parseJson span).isNone

theorem calculate_match_score_failure (resp : Except String String)
    (jobTitle company : Json) (now : String) (h : matchFailureB resp = true) :
    calculate_match_score resp jobTitle company now = fallbackAnalysis jobTitle company now := by
  cases resp with
  | error e => rfl
  | ok content =>
    simp only [matchFailureB] at h
    cases hspan : extractJsonSpan content with
    | none => simp [calculate_match_score, hspan]
    | some span =>
      rw [hspan] at h
      have hp : parseJson span = none := Option.isNone_iff_eq_none.mp h
      simp [calculate_match_score, hspan, hp]

/-- C2: on every failure path (raised inference call or unparseable
response), the produced record carries zero overall and sub-scores,
priority `UNKNOWN`, the non-null error marker, and the single-element
placeholder lists for strengths, gaps and recommendations. -/
theorem fallback_schema_uniformity (resp : Except String String)
    (jobTitle company : Json) (now : String) (h : matchFailureB resp = true) :
    dictGetD (calculate_match_score resp jobTitle company now) "overall_score" Json.null = Json.num 0
    ∧ dictGetD (calculate_match_score resp jobTitle company now) "technical_skills_score" Json.null = Json.num 0
    ∧ dictGetD (calculate_match_score resp jobTitle company now) "experience_score" Json.null = Json.num 0
    ∧ dictGetD (calculate_match_score resp jobTitle company now) "domain_score" Json.null = Json.num 0
    ∧ dictGetD (calculate_match_score resp jobTitle company now) "responsibilities_score" Json.null = Json.num 0
    ∧ dictGetD (calculate_match_score resp jobTitle company now) "priority" Json.null = Json.str "UNKNOWN"
    ∧ dictFind (calculate_match_score resp jobTitle company now) "error" = some (Json.str "AI analysis failed")
    ∧ dictGetD (calculate_match_score resp jobTitle company now) "strengths" Json.null
        = Json.arr [Json.str "Analysis failed - manual review needed"]
    ∧ dictGetD (calculate_match_score resp jobTitle company now) "gaps" Json.null
        = Json.arr [Json.str "Could not analyze - check API connection"]
    ∧ dictGetD (calculate_match_score resp jobTitle company now) "recommendations" Json.null
        = Json.arr [Json.str "Retry analysis or review manually"] := by
  simp only [calculate_match_score_failure resp jobTitle company now h]
  exact ⟨rfl, rfl, rfl, rfl, rfl, rfl, rfl, rfl, rfl, rfl⟩

/-- Witness for C2 at a response with no brace span at all. -/
theorem fallback_schema_uniformity_witness :
    matchFailureB (.ok "Sorry, I cannot help with that.") = true
    ∧ dictGetD (calculate_match_score (.ok "Sorry, I cannot help with that.")
        (.str "T") (.str "C") "ts") "overall_score" Json.null = Json.num 0
    ∧ dictFind (calculate_match_score (.ok "Sorry, I cannot help with that.")
        (.str "T") (.str "C") "ts") "error" = some (Json.str "AI analysis failed") :=
  ⟨rfl,
   (fallback_schema_uniformity (.ok "Sorry, I cannot help with that.")
      (.str "T") (.str "C") "ts" rfl).1,
   (fallback_schema_uniformity (.ok "Sorry, I cannot help with that.")
      (.str "T") (.str "C") "ts" rfl).2.2.2.2.2.2.1⟩

theorem greedyCloseBrace_eq_none (cs : List Char) (h : '\x7d' ∉ cs) :
    greedyCloseBrace cs = none := by
  induction cs with
  | nil => rfl
  | cons c rest ih =>
    simp only [List.mem_cons, not_or] at h
    have hc : c ≠ '\x7d' := fun hx => h.1 hx.symm
    simp [greedyCloseBrace, ih h.2, hc]

theorem greedyCloseBrace_append (post : List Char) (hpost : '\x7d' ∉ post) :
    ∀ xs : List Char, xs.getLast? = some '\x7d' →
      greedyCloseBrace (xs ++ post) = some xs := by
  intro xs
  induction xs with
  | nil => intro h; simp at h
  | cons x rest ih =>
    intro h
    cases rest with
    | nil =>
      have hx : x = '\x7d' := by simpa using h
      subst hx
      simp [greedyCloseBrace, greedyCloseBrace_eq_none post hpost]
    | cons y t =>
      have h₂ : (y :: t).getLast? = some '\x7d' := by
        rw [List.getLast?_cons_cons] at h; exact h
      have hr : greedyCloseBrace ((y :: t) ++ post) = some (y :: t) := ih h₂
      show (match greedyCloseBrace ((y :: t) ++ post) with
            | some inner => some (x :: inner)
            | none => if x = '\x7d' then some [x] else none) = some (x :: y :: t)
      rw [hr]

theorem braceSearch_append_of_no_open (rest : List Char) :
    ∀ pre : List Char, '\x7b' ∉ pre → braceSearch (pre ++ rest) = braceSearch rest := by
  intro pre
  induction pre with
  | nil => intro _; rfl
  | cons c t ih =>
    intro h
    simp only [List.mem_cons, not_or] at h
    have hc : c ≠ '\x7b' := fun hx => h.1 hx.symm
    simp only [List.cons_append, braceSearch, hc, if_false]
    exact ih h.2

/-- The spec's example response: a JSON object embedded between leading
and trailing prose. -/
def exResponse : String :=
  "Sure! Here is the result: \x7b\"overall_score\": 42, \"priority\": \"HIGH\"\x7d Thanks."

/-- C3: the parser locates the span from the first opening brace to the
last closing brace — for any response of the shape
`prose-without-open-brace ++ span ++ prose-without-close-brace` the span
is returned exactly; on the spec's example the embedded object is parsed
into a genuine record; and a response without a span, or with a span that
does not parse, produces the fallback record rather than a crash. -/
theorem json_span_extraction :
    (∀ pre mid post : List Char, '\x7b' ∉ pre → '\x7d' ∉ post →
        mid.head? = some '\x7b' → mid.getLast? = some '\x7d' →
        braceSearch (pre ++ (mid ++ post)) = some mid)
    ∧ calculate_match_score (.ok exResponse) (.str "T") (.str "C") "ts"
        = [("overall_score", Json.num 42), ("priority", Json.str "HIGH"),
           ("job_title", Json.str "T"), ("company", Json.str "C"),
           ("analysis_timestamp", Json.str "ts")]
    ∧ (∀ (content : String) (jobTitle company : Json) (now : String),
        extractJsonSpan content = none →
        calculate_match_score (.ok content) jobTitle company now
          = fallbackAnalysis jobTitle company now)
    ∧ (∀ (content span : String) (jobTitle company : Json) (now : String),
        extractJsonSpan content = some span → parseJson span = none →
        calculate_match_score (.ok content) jobTitle company now
          = fallbackAnalysis jobTitle company now) := by
  refine ⟨?_, rfl, ?_, ?_⟩
  · intro pre mid post hpre hpost hhead hlast
    rw [braceSearch_append_of_no_open (mid ++ post) pre hpre]
    cases mid with
    | nil => simp at hhead
    | cons m t =>
      have hm : m = '\x7b' := by simpa using hhead
      subst hm
      cases t with
      | nil =>
        have hsing : (['\x7b'] : List Char).getLast? = some '\x7b' := rfl
        rw [hsing] at hlast
        exact absurd hlast (by decide)
      | cons y u =>
        have ht : (y :: u).getLast? = some '\x7d' := by
          rw [List.getLast?_cons_cons] at hlast; exact hlast
        have hg : greedyCloseBrace ((y :: u) ++ post) = some (y :: u) :=
          greedyCloseBrace_append post hpost (y :: u) ht
        show (if ('\x7b' : Char) = '\x7b' then
                match greedyCloseBrace ((y :: u) ++ post) with
                | some inner => some ('\x7b' :: inner)
                | none => braceSearch ((y :: u) ++ post)
              else braceSearch ((y :: u) ++ post)) = some ('\x7b' :: y :: u)
        rw [if_pos rfl, hg]
  · intro content jobTitle company now h
    simp [calculate_match_score, h]
  · intro content span jobTitle company now h₁ h₂
    simp [calculate_match_score, h₁, h₂]

/-- Witness for C3: the general span law applied to the concrete example
split, and the fallback conclusion at a concrete unparseable-span
response. -/
theorem json_span_extraction_witness :
    braceSearch ("Sure! Here is the result: ".toList
        ++ ("\x7b\"overall_score\": 42, \"priority\": \"HIGH\"\x7d".toList ++ " Thanks.".toList))
      = some "\x7b\"overall_score\": 42, \"priority\": \"HIGH\"\x7d".toList
    ∧ calculate_match_score (.ok "bad \x7b not json \x7d span") (.str "T") (.str "C") "ts"
        = fallbackAnalysis (.str "T") (.str "C") "ts" :=
  ⟨json_span_extraction.1 _ _ _ (by decide) (by decide) (by decide) (by decide),
   json_span_extraction.2.2.2 "bad \x7b not json \x7d span" "\x7b not json \x7d"
     (.str "T") (.str "C") "ts" rfl rfl⟩

/-! ### The declared AnalysisRecord schema (spec §3)

Spec-side predicate, written from the spec's words — integer scores in
0 to 100 and a priority drawn from the four labels — to compare against
what `calculate_match_score` actually produces. -/

/-- The field `k` holds an integer between 0 and 100. -/
def scoreFieldOK (d : Dict) (k : String) : Bool :=
  match dictFind d k with
  | some (.num n) => decide (0 ≤ n) && decide (n ≤ 100)
  | _ => false

/-- The priority field holds one of the four declared labels. -/
def priorityFieldOK (d : Dict) : Bool :=
  match dictFind d "priority" with
  | some (.str p) => p == "HIGH" || p == "MEDIUM" || p == "LOW" || p == "UNKNOWN"
  | _ => false

/-- The spec's AnalysisRecord schema on the fields the claims name. -/
def analysisSchemaOKb (d : Dict) : Bool :=
  scoreFieldOK d "overall_score" && scoreFieldOK d "technical_skills_score"
    && scoreFieldOK d "experience_score" && scoreFieldOK d "domain_score"
    && scoreFieldOK d "responsibilities_score" && priorityFieldOK d

/-- A syntactically valid inference response whose score is out of the
declared 0-100 range: the source parses and returns it unvalidated. -/
def cexSchemaResponse : String :=
  "\x7b\"overall_score\": 150, \"technical_skills_score\": 0, \"experience_score\": 0, \"domain_score\": 0, \"responsibilities_score\": 0, \"priority\": \"HIGH\"\x7d"

set_option maxRecDepth 8192 in
/-- C7 counterexample: for the response text `cexSchemaResponse` the
Matching Stage returns a record whose `overall_score` is 150, violating
the declared schema — no validation or clamping is performed. -/
theorem schema_not_enforced_counterexample :
    dictFind (calculate_match_score (.ok cexSchemaResponse) (.str "T") (.str "C") "ts")
        "overall_score" = some (Json.num 150)
    ∧ analysisSchemaOKb
        (calculate_match_score (.ok cexSchemaResponse) (.str "T") (.str "C") "ts") = false :=
  ⟨rfl, rfl⟩

theorem dictFind_addMeta (kvs : Dict) (jobTitle company : Json) (now : String)
    (k : String) (h₁ : k ≠ "job_title") (h₂ : k ≠ "company")
    (h₃ : k ≠ "analysis_timestamp") :
    dictFind (dictSet (dictSet (dictSet kvs "job_title" jobTitle) "company" company)
        "analysis_timestamp" (.str now)) k = dictFind kvs k := by
  rw [dictFind_dictSet_ne _ _ _ _ (Ne.symm h₃), dictFind_dictSet_ne _ _ _ _ (Ne.symm h₂),
    dictFind_dictSet_ne _ _ _ _ (Ne.symm h₁)]

/-- C7 amended: every fallback record satisfies the declared schema, and
a genuine record satisfies it exactly when the parsed response object
already does — the stage adds only metadata fields and never validates
or adjusts the response's scores and priority. -/
theorem schema_holds_conditionally :
    (∀ (jobTitle company : Json) (now : String),
        analysisSchemaOKb (fallbackAnalysis jobTitle company now) = true)
    ∧ (∀ (content span : String) (kvs : Dict) (jobTitle company : Json) (now : String),
        extractJsonSpan content = some span →
        parseJson span = some (.obj kvs) →
        analysisSchemaOKb (calculate_match_score (.ok content) jobTitle company now)
          = analysisSchemaOKb kvs) := by
  constructor
  · intro jobTitle company now; rfl
  · intro content span kvs jobTitle company now h₁ h₂
    have hr : calculate_match_score (.ok content) jobTitle company now
        = dictSet (dictSet (dictSet kvs "job_title" jobTitle) "company" company)
            "analysis_timestamp" (.str now) := by
      simp [calculate_match_score, h₁, h₂]
    rw [hr]
    unfold analysisSchemaOKb scoreFieldOK priorityFieldOK
    rw [dictFind_addMeta kvs jobTitle company now "overall_score" (by decide) (by decide) (by decide),
      dictFind_addMeta kvs jobTitle company now "technical_skills_score" (by decide) (by decide) (by decide),
      dictFind_addMeta kvs jobTitle company now "experience_score" (by decide) (by decide) (by decide),
      dictFind_addMeta kvs jobTitle company now "domain_score" (by decide) (by decide) (by decide),
      dictFind_addMeta kvs jobTitle company now "responsibilities_score" (by decide) (by decide) (by decide),
      dictFind_addMeta kvs jobTitle company now "priority" (by decide) (by decide) (by decide)]

/-- An inference response whose parsed fields all satisfy the schema. -/
def exFullResponse : String :=
  "\x7b\"overall_score\": 42, \"technical_skills_score\": 50, \"experience_score\": 60, \"domain_score\": 70, \"responsibilities_score\": 80, \"priority\": \"HIGH\"\x7d"

set_option maxRecDepth 8192 in
/-- Witness for the amended C7: a fallback record checks out, and the
genuine record of a schema-conforming response checks out. -/
theorem schema_holds_conditionally_witness :
    analysisSchemaOKb (fallbackAnalysis (.str "T") (.str "C") "ts") = true
    ∧ analysisSchemaOKb
        (calculate_match_score (.ok exFullResponse) (.str "T") (.str "C") "ts") = true :=
  ⟨schema_holds_conditionally.1 (.str "T") (.str "C") "ts",
   by
    rw [schema_holds_conditionally.2 exFullResponse exFullResponse
      [("overall_score", Json.num 42), ("technical_skills_score", Json.num 50),
       ("experience_score", Json.num 60), ("domain_score", Json.num 70),
       ("responsibilities_score", Json.num 80), ("priority", Json.str "HIGH")]
      (.str "T") (.str "C") "ts" rfl rfl]
    rfl⟩

theorem jobIdOf_get_job_info (meta : JobMeta) (now : Int) (jobId : String) :
    jobIdOf (get_job_info meta now jobId) = Json.str jobId := by
  unfold jobIdOf get_job_info
  by_cases h : meta.navOk <;> simp [h, dictGetD]

theorem processIds_invariant (metaOf : String → JobMeta) (now : Int) (maxJobs : Nat) :
    ∀ (ids seen : List String) (acc : List Dict),
      (acc.map jobIdOf).Nodup →
      (∀ r ∈ acc, ∃ s ∈ seen, jobIdOf r = Json.str s) →
      acc.length ≤ maxJobs →
      ((processIds metaOf now maxJobs ids seen acc).2.map jobIdOf).Nodup
      ∧ (∀ r ∈ (processIds metaOf now maxJobs ids seen acc).2,
          ∃ s ∈ (processIds metaOf now maxJobs ids seen acc).1, jobIdOf r = Json.str s)
      ∧ (processIds metaOf now maxJobs ids seen acc).2.length ≤ maxJobs := by
  intro ids
  induction ids with
  | nil => intro seen acc h₁ h₂ h₃; exact ⟨h₁, h₂, h₃⟩
  | cons jid rest ih =>
    intro seen acc h₁ h₂ h₃
    by_cases hc : (!(seen.contains jid) && decide (acc.length < maxJobs)) = true
    · have hmem : jid ∉ seen ∧ acc.length < maxJobs := by
        simpa using hc
      simp only [processIds, hc, if_true]
      apply ih
      · rw [List.map_append]
        rw [List.nodup_append]
        refine ⟨h₁, by simp, ?_⟩
        intro x hx hx₂
        simp only [List.map_cons, List.map_nil, jobIdOf_get_job_info, List.mem_singleton] at hx₂
        subst hx₂
        obtain ⟨r, hr, hrid⟩ := List.mem_map.mp hx
        obtain ⟨s, hs, hsid⟩ := h₂ r hr
        rw [hrid] at hsid
        have : jid = s := by
          have := hsid
          injection this
        exact hmem.1 (this ▸ hs)
      · intro r hr
        rcases List.mem_append.mp hr with hin | hin
        · obtain ⟨s, hs, hsid⟩ := h₂ r hin
          exact ⟨s, List.mem_append_left _ hs, hsid⟩
        · have : r = get_job_info (metaOf jid) now jid := by simpa using hin
          subst this
          exact ⟨jid, List.mem_append_right _ (by simp), jobIdOf_get_job_info _ _ _⟩
      · simpa using hmem.2
    · simp only [processIds, hc, if_false]
      exact ih seen acc h₁ h₂ h₃

theorem collectLoop_invariant (metaOf : String → JobMeta) (now : Int) (maxJobs : Nat) :
    ∀ (pages : List (List String)) (seen : List String) (acc : List Dict),
      (acc.map jobIdOf).Nodup →
      (∀ r ∈ acc, ∃ s ∈ seen, jobIdOf r = Json.str s) →
      acc.length ≤ maxJobs →
      ((collectLoop metaOf now maxJobs pages seen acc).map jobIdOf).Nodup
      ∧ (collectLoop metaOf now maxJobs pages seen acc).length ≤ maxJobs := by
  intro pages
  induction pages with
  | nil => intro seen acc h₁ _ h₃; exact ⟨h₁, h₃⟩
  | cons page rest ih =>
    intro seen acc h₁ h₂ h₃
    by_cases hq : acc.length < maxJobs
    · simp only [collectLoop, hq, if_pos]
      have hp := processIds_invariant metaOf now maxJobs page seen acc h₁ h₂ h₃
      exact ih _ _ hp.1 hp.2.1 hp.2.2
    · simp only [collectLoop, hq, if_neg, if_false]
      exact ⟨h₁, h₃⟩

/-- C8: within one Discovery run, the collected records carry pairwise
distinct `job_id` values (an unseen identifier is recorded once, a later
duplicate is skipped by the `seen` test before it can count toward the
quota), and the collection never exceeds `max_jobs` records. -/
theorem discovery_dedup_and_quota (a : AuthAttempts) (metaOf : String → JobMeta)
    (now : Int) (pages : List (List String)) (maxJobs : Nat) :
    ((collect_job_ids_from_search a metaOf now pages maxJobs).map jobIdOf).Nodup
    ∧ (collect_job_ids_from_search a metaOf now pages maxJobs).length ≤ maxJobs := by
  unfold collect_job_ids_from_search
  by_cases h : ensure_logged_in a = true
  · simp only [h, if_pos]
    exact collectLoop_invariant metaOf now maxJobs pages [] []
      (by simp) (by simp) (by simp)
  · simp [h]

/-- C9: when the cookie, credential and manual login strategies all fail,
Discovery returns the empty collection — for every page content, so no
extraction is attempted — and the Enrichment Stage applied to that result
processes no job. -/
theorem auth_failure_empty_discovery (a : AuthAttempts) (metaOf : String → JobMeta)
    (now : Int) (pages : List (List String)) (maxJobs : Nat)
    (outcome : Nat → Option PageFn)
    (h₁ : a.isLoggedIn = false) (h₂ : a.cookieOk = false)
    (h₃ : a.autoOk = false) (h₄ : a.manualOk = false) :
    collect_job_ids_from_search a metaOf now pages maxJobs = []
    ∧ fetch_all_job_descriptions
        (collect_job_ids_from_search a metaOf now pages maxJobs) outcome = [] := by
  have he : ensure_logged_in a = false := by
    simp [ensure_logged_in, h₁, h₂, h₃, h₄]
  have hc : collect_job_ids_from_search a metaOf now pages maxJobs = [] := by
    simp [collect_job_ids_from_search, he]
  exact ⟨hc, by rw [hc]; rfl⟩

/-- Witness for C9 at a concrete failing-auth context with non-trivial
visible pages. -/
theorem auth_failure_empty_discovery_witness :
    collect_job_ids_from_search ⟨false, true, false, true, false, false⟩
        (fun _ => ⟨true, none, none, none⟩) 0 [["4266063414", "4266063415"]] 10 = []
    ∧ fetch_all_job_descriptions
        (collect_job_ids_from_search ⟨false, true, false, true, false, false⟩
          (fun _ => ⟨true, none, none, none⟩) 0 [["4266063414", "4266063415"]] 10)
        (fun _ => none) = [] :=
  auth_failure_empty_discovery _ _ _ _ _ _ rfl rfl rfl rfl

/-- C10: the empty collection short-circuits `create_summary_report` to
the fixed string before the statistics block, so the mean is only ever
divided by the length of a non-empty collection. -/
theorem create_summary_report_empty (now : String) :
    create_summary_report now [] = "No jobs analyzed." := rfl

/-- A minimal analysis record for the report counterexample. -/
def cexReportRecord : Dict :=
  [("overall_score", Json.num 50), ("priority", Json.str "HIGH")]

set_option maxRecDepth 16384 in
/-- C6 counterexample: the report embeds the clock reading in its
`Generated:` header, so two calls on the same record collection at
different times return different strings — the function is not
deterministic in its input collection alone. -/
theorem report_depends_on_clock_counterexample :
    create_summary_report "2025-01-01 00:00:00" [cexReportRecord]
      ≠ create_summary_report "2025-01-02 00:00:00" [cexReportRecord] := by
  decide

/-- The record fields `create_summary_report` reads. -/
def reportConsultedKeys : List String :=
  ["overall_score", "job_title", "company", "priority", "job_id", "strengths"]

theorem scoreVal_dictSet_ne (r : Dict) (k : String) (v : Json)
    (h : k ≠ "overall_score") : scoreVal (dictSet r k v) = scoreVal r := by
  unfold scoreVal
  rw [dictGetD_dictSet_ne _ _ _ _ _ h]

theorem priorityIs_dictSet_ne (p : String) (r : Dict) (k : String) (v : Json)
    (h : k ≠ "priority") : priorityIs p (dictSet r k v) = priorityIs p r := by
  unfold priorityIs
  rw [dictFind_dictSet_ne _ _ _ _ h]

theorem strengthsLine_dictSet_ne (r : Dict) (k : String) (v : Json)
    (h : k ≠ "strengths") : strengthsLine (dictSet r k v) = strengthsLine r := by
  unfold strengthsLine
  rw [dictGetD_dictSet_ne _ _ _ _ _ h]

theorem top5Line_dictSet_ne (idx : Nat) (r : Dict) (k : String) (v : Json)
    (h₁ : k ≠ "job_title") (h₂ : k ≠ "company") (h₃ : k ≠ "overall_score")
    (h₄ : k ≠ "priority") (h₅ : k ≠ "job_id") (h₆ : k ≠ "strengths") :
    top5Line idx (dictSet r k v) = top5Line idx r := by
  unfold top5Line
  rw [dictGetD_dictSet_ne _ _ _ _ _ h₁, dictGetD_dictSet_ne _ _ _ _ _ h₂,
    dictGetD_dictSet_ne _ _ _ _ _ h₃, dictGetD_dictSet_ne _ _ _ _ _ h₄,
    dictGetD_dictSet_ne _ _ _ _ _ h₅, strengthsLine_dictSet_ne r k v h₆]

theorem top5Lines_map_dictSet (k : String) (v : Json)
    (h₁ : k ≠ "job_title") (h₂ : k ≠ "company") (h₃ : k ≠ "overall_score")
    (h₄ : k ≠ "priority") (h₅ : k ≠ "job_id") (h₆ : k ≠ "strengths") :
    ∀ (l : List Dict) (idx : Nat),
      top5Lines idx (l.map fun r => dictSet r k v) = top5Lines idx l := by
  intro l
  induction l with
  | nil => intro idx; rfl
  | cons r rest ih =>
    intro idx
    simp only [List.map_cons, top5Lines,
      top5Line_dictSet_ne idx r k v h₁ h₂ h₃ h₄ h₅ h₆, ih (idx + 1)]

/-- C6 amended: the report is a deterministic function of the clock
reading and the consulted record fields — writing any binding for a key
the report never reads changes nothing, for every collection. -/
theorem report_ignores_unconsulted (now : String) (results : List Dict)
    (k : String) (v : Json) (h : ¬ k ∈ reportConsultedKeys) :
    create_summary_report now (results.map fun r => dictSet r k v)
      = create_summary_report now results := by
  simp only [reportConsultedKeys, List.mem_cons, not_or] at h
  obtain ⟨hk₁, hk₂, hk₃, hk₄, hk₅, hk₆, -⟩ := h
  have hscores : (results.map fun r => dictSet r k v).map scoreVal
      = results.map scoreVal := by
    rw [List.map_map]
    exact List.map_congr_left fun r _ => scoreVal_dictSet_ne r k v hk₁
  have hhigh : ∀ p : String,
      ((results.map fun r => dictSet r k v).filter (priorityIs p)).length
        = (results.filter (priorityIs p)).length := by
    intro p
    rw [List.filter_map, List.length_map]
    congr 1
    exact List.filter_congr fun r _ => by
      simp [Function.comp, priorityIs_dictSet_ne p r k v hk₄]
  have htop : top5Lines 1 ((results.map fun r => dictSet r k v).take 5)
      = top5Lines 1 (results.take 5) := by
    rw [← List.map_take]
    exact top5Lines_map_dictSet k v hk₂ hk₃ hk₁ hk₄ hk₅ hk₆ (results.take 5) 1
  have hempty : (results.map fun r => dictSet r k v).isEmpty = results.isEmpty := by
    cases results <;> rfl
  simp only [create_summary_report, hempty, List.length_map, hscores, hhigh, htop]

/-- Witness for the amended C6: adding an unread field leaves a concrete
report unchanged. -/
theorem report_ignores_unconsulted_witness :
    ¬ "analysis_timestamp" ∈ reportConsultedKeys
    ∧ create_summary_report "2025-01-01 00:00:00"
        ([cexReportRecord].map fun r => dictSet r "analysis_timestamp" (Json.str "t"))
      = create_summary_report "2025-01-01 00:00:00" [cexReportRecord] :=
  ⟨by decide,
   report_ignores_unconsulted "2025-01-01 00:00:00" [cexReportRecord]
     "analysis_timestamp" (Json.str "t") (by decide)⟩

end JobAgent
